import Mathlib

/-!
Verification of the OpenAI-to-NVIDIA-NIM proxy (two variants of `server.js`:
the "complete" variant with a thinking filter and forced streaming, and the
"simple" variant that forwards `data:` lines unfiltered).

The development shallowly embeds the request/response translation engine:
JSON values with JavaScript truthiness, the per-request streaming transcoder
(byte-buffer, newline splitting, per-line emission), the request builder with
`||` defaults, model resolution over the static model maps, the non-streaming
response reshaper, and the catch-block error mapper.  `JSON.parse` is a host
builtin and is kept abstract as a `String → Option Json` parameter.
-/

set_option maxRecDepth 8192

namespace NimProxy

/-- JSON values as delivered by `express.json` / returned by `JSON.parse`. -/
inductive Json where
  | null
  | bool (b : Bool)
  | num (q : ℚ)
  | str (s : String)
  | arr (elems : List Json)
  | obj (fields : List (String × Json))

/-- JavaScript truthiness of a JSON value (`NaN` is not modelled: JSON bodies
cannot contain it). -/
def Json.truthy : Json → Bool
  | .null => false
  | .bool b => b
  | .num q => decide (q ≠ 0)
  | .str s => decide (s ≠ "")
  | .arr _ => true
  | .obj _ => true

/-- Truthiness of a possibly-undefined value (`none` is JS `undefined`). -/
def truthyOpt : Option Json → Bool
  | none => false
  | some j => j.truthy

/-- JS property access `j.k`: defined on objects, `undefined` elsewhere
(accessing a property of a primitive yields `undefined`; access on `null`
throws, but every use site below is guarded by a truthiness check or sits
inside the `try` block whose `catch` re-emits the raw line, so modelling it
as `undefined` is observationally equivalent there). -/
def Json.getProp : Json → String → Option Json
  | .obj fields, k => fields.lookup k
  | _, _ => none

/-- JS indexing `j[0]`: array head, object property `"0"`, first code unit of
a string, `undefined` on other primitives. -/
def Json.index0 : Json → Option Json
  | .arr es => es.head?
  | .obj fields => fields.lookup "0"
  | .str s =>
      match s.data with
      | [] => none
      | c :: _ => some (.str (String.mk [c]))
  | _ => none

/-- The whitespace characters removed by JavaScript `String.prototype.trim`
(ASCII portion; the streamed SSE lines only ever carry these). -/
def isJsSpace (c : Char) : Bool :=
  c == ' ' || c == '\t' || c == '\n' || c == '\r' || c == '\x0b' || c == '\x0c'

/-- `line.trim()` over the character list of a line. -/
def trimChars (cs : List Char) : List Char :=
  ((cs.dropWhile isJsSpace).reverse.dropWhile isJsSpace).reverse

/-- The SSE terminator event written for `[DONE]`, both when forwarding an
upstream sentinel and when the `end` handler synthesizes one. -/
def doneWrite : String := "data: [DONE]\n\n"

/-- Complete variant, body of `lines.forEach(line => ...)`: trim, require the
`data: ` framing, forward `[DONE]` at once, otherwise `JSON.parse` the payload
and, when `SHOW_THINKING` is off, drop events whose first choice has a truthy
`delta.reasoning_content`; parse failures fall into the `catch` and the raw
payload is forwarded. Returns the strings written to the response. -/
def handleLine (showThinking : Bool) (parse : String → Option Json)
    (line : List Char) : List String :=
  let trimmedLine := trimChars line
  if ("data: ".toList).isPrefixOf trimmedLine then
    let dataContent := String.mk (trimmedLine.drop 6)
    if dataContent = "[DONE]" then
      [doneWrite]
    else
      match parse dataContent with
      | some parsed =>
          let choices := parsed.getProp "choices"
          let choice0 := choices.bind Json.index0
          if truthyOpt choices && truthyOpt choice0 then
            let delta := choice0.bind (fun c => c.getProp "delta")
            if !showThinking && truthyOpt delta &&
                truthyOpt (delta.bind (fun d => d.getProp "reasoning_content")) then
              []
            else
              ["data: " ++ dataContent ++ "\n\n"]
          else
            ["data: " ++ dataContent ++ "\n\n"]
      | none => ["data: " ++ dataContent ++ "\n\n"]
  else
    []

/-- Simple variant, body of `lines.forEach(line => ...)`: no trim, no filter;
lines starting with `data: ` are written back followed by a single newline. -/
def handleLineSimple (line : List Char) : List String :=
  if ("data: ".toList).isPrefixOf line then
    [String.mk line ++ "\n"]
  else
    []

/-- `buffer.split('\n')` with the last fragment popped off: the first
component lists the completed lines (in order), the second is the fragment
after the final newline, which becomes the new buffer. -/
def splitLines : List Char → List (List Char) × List Char
  | [] => ([], [])
  | c :: cs =>
      let r := splitLines cs
      if c = '\n' then
        ([] :: r.1, r.2)
      else
        match r with
        | (l :: ls, t) => ((c :: l) :: ls, t)
        | ([], t) => ([], c :: t)

/-- Per-request state of the streaming transcoder: the undetermined tail
buffer, the ordered list of strings written downstream, and whether
`res.end()` has been called. -/
structure TState where
  buffer : List Char
  writes : List String
  ended : Bool
deriving DecidableEq

/-- The `response.data.on('data')` handler: append the chunk to the buffer,
split on newlines, keep the last fragment as the new buffer and emit every
completed line through the per-line handler. -/
def onData (emit : List Char → List String) (st : TState) (chunk : List Char) :
    TState :=
  let parts := splitLines (st.buffer ++ chunk)
  { st with buffer := parts.2, writes := st.writes ++ (parts.1.map emit).flatten }

/-- State before the first chunk: empty buffer, nothing written. -/
def initState : TState := ⟨[], [], false⟩

/-- Fold the data handler over the upstream chunk sequence. -/
def runData (emit : List Char → List String) (st : TState)
    (chunks : List (List Char)) : TState :=
  chunks.foldl (onData emit) st

/-- How the upstream stream terminates: graceful `'end'` or `'error'`. -/
inductive Terminal where
  | endOfStream
  | streamError

/-- Complete variant: run the data handler over all chunks, then the terminal
handler.  The `'end'` handler unconditionally writes `data: [DONE]\n\n` and
ends the response; the `'error'` handler only ends the response. -/
def runFull (showThinking : Bool) (parse : String → Option Json)
    (chunks : List (List Char)) (t : Terminal) : TState :=
  let st := runData (handleLine showThinking parse) initState chunks
  match t with
  | .endOfStream => { st with writes := st.writes ++ [doneWrite], ended := true }
  | .streamError => { st with ended := true }

/-- Simple variant: same chunk loop with its own line handler; neither
terminal handler writes anything, both end the response. -/
def runSimple (chunks : List (List Char)) (t : Terminal) : TState :=
  let st := runData handleLineSimple initState chunks
  match t with
  | .endOfStream => { st with ended := true }
  | .streamError => { st with ended := true }

/-- The replacement character U+FFFD substituted by the UTF-8 decoder for
malformed or incomplete input. -/
def replacementChar : Char := '\uFFFD'

/-- State of the WHATWG UTF-8 decoder that `Buffer.toString('utf8')`
implements: between code points, or inside a multi-byte sequence carrying
the accumulated code point, the number of continuation bytes still needed,
and the admissible range for the next byte (the ranges encode the
overlong/surrogate/out-of-range restrictions). -/
inductive Utf8State where
  | start
  | cont (codepoint bytesNeeded lower upper : Nat)
deriving DecidableEq

/-- Decoding one byte in the start state: ASCII is emitted directly, a lead
byte opens a multi-byte sequence with its admissible second-byte range, and
anything else (stray continuation bytes 0x80-0xBF, overlong leads 0xC0/0xC1,
0xF5-0xFF) emits U+FFFD. -/
def utf8StartByte (b : Nat) : List Char × Utf8State :=
  if b ≤ 0x7F then ([Char.ofNat b], .start)
  else if 0xC2 ≤ b && b ≤ 0xDF then ([], .cont (b % 32) 1 0x80 0xBF)
  else if b = 0xE0 then ([], .cont (b % 16) 2 0xA0 0xBF)
  else if 0xE1 ≤ b && b ≤ 0xEC then ([], .cont (b % 16) 2 0x80 0xBF)
  else if b = 0xED then ([], .cont (b % 16) 2 0x80 0x9F)
  else if 0xEE ≤ b && b ≤ 0xEF then ([], .cont (b % 16) 2 0x80 0xBF)
  else if b = 0xF0 then ([], .cont (b % 8) 3 0x90 0xBF)
  else if 0xF1 ≤ b && b ≤ 0xF3 then ([], .cont (b % 8) 3 0x80 0xBF)
  else if b = 0xF4 then ([], .cont (b % 8) 3 0x80 0x8F)
  else ([replacementChar], .start)

/-- One step of the WHATWG UTF-8 decoder: inside a sequence, an in-range
byte is accumulated (completing the code point when it was the last one
needed); an out-of-range byte emits U+FFFD and is reprocessed in the start
state. -/
def utf8Step (st : Utf8State) (b : Nat) : List Char × Utf8State :=
  match st with
  | .start => utf8StartByte b
  | .cont cp bytesNeeded lower upper =>
      if lower ≤ b && b ≤ upper then
        let cp2 := cp * 64 + (b % 64)
        if bytesNeeded = 1 then ([Char.ofNat cp2], .start)
        else ([], .cont cp2 (bytesNeeded - 1) 0x80 0xBF)
      else
        let r := utf8StartByte b
        (replacementChar :: r.1, r.2)

/-- Run the decoder over a byte list from a given state, returning the
emitted characters and the final state. -/
def utf8Fold (st : Utf8State) : List Nat → List Char × Utf8State
  | [] => ([], st)
  | b :: bs =>
      let r := utf8Step st b
      let rest := utf8Fold r.2 bs
      (r.1 ++ rest.1, rest.2)

/-- End of one buffer: a pending incomplete sequence is flushed as a single
U+FFFD (each `toString` call decodes its Buffer independently). -/
def utf8Flush : Utf8State → List Char
  | .start => []
  | .cont _ _ _ _ => [replacementChar]

/-- `chunk.toString()`: UTF-8 decoding with replacement of one Buffer,
flushing any incomplete trailing sequence. -/
def utf8Decode (bytes : List Nat) : List Char :=
  (utf8Fold .start bytes).1 ++ utf8Flush (utf8Fold .start bytes).2

/-- The data handler at byte granularity, as the code runs it:
`buffer += chunk.toString()` then split/pop/emit. -/
def onDataBytes (emit : List Char → List String) (st : TState)
    (chunk : List Nat) : TState :=
  onData emit st (utf8Decode chunk)

/-- Fold the byte-level data handler over the upstream Buffer sequence. -/
def runDataBytes (emit : List Char → List String) (st : TState)
    (chunks : List (List Nat)) : TState :=
  chunks.foldl (onDataBytes emit) st

/-- Complete variant at byte granularity: the chunk loop over Buffers, then
the terminal handler. -/
def runFullBytes (showThinking : Bool) (parse : String → Option Json)
    (chunks : List (List Nat)) (t : Terminal) : TState :=
  let st := runDataBytes (handleLine showThinking parse) initState chunks
  match t with
  | .endOfStream => { st with writes := st.writes ++ [doneWrite], ended := true }
  | .streamError => { st with ended := true }

/-- UTF-8 bytes of the line `data: éx\n`: the payload starts with the
two-byte character 0xC3 0xA9. -/
def accentBytes : List Nat :=
  [0x64, 0x61, 0x74, 0x61, 0x3A, 0x20, 0xC3, 0xA9, 0x78, 0x0A]

/-- JavaScript `v || d` on a possibly-absent JSON value: the default is taken
when the value is absent (`undefined`) or falsy. -/
def jsOr (v : Option Json) (d : Json) : Json :=
  match v with
  | none => d
  | some j => if j.truthy then j else d

/-- JavaScript `v || d` over possibly-absent strings (empty string is falsy). -/
def strOr (v : Option String) (d : String) : String :=
  match v with
  | none => d
  | some s => if s = "" then d else s

/-- The fields destructured from `req.body` by the chat-completions handler.
Absent fields are `none` (`undefined`). -/
structure InboundRequest where
  model : Option Json
  messages : List Json
  temperature : Option Json
  max_tokens : Option Json
  stream : Option Json

/-- The body sent to the NIM backend. -/
structure NimRequest where
  model : String
  messages : List Json
  temperature : Json
  max_tokens : Json
  stream : Option Json

/-- `FORCE_STREAMING` constant of the complete variant. -/
def FORCE_STREAMING : Bool := true

/-- `SHOW_THINKING` constant of the complete variant. -/
def SHOW_THINKING : Bool := true

/-- Complete variant `nimRequest` object: messages copied by reference,
`temperature: temperature || 0.7`, `max_tokens: max_tokens || 4096`,
`stream: shouldStream` where `shouldStream = FORCE_STREAMING || stream`
(with `FORCE_STREAMING` the literal `true`, the `||` short-circuits). -/
def nimRequest (r : InboundRequest) (nimModel : String) : NimRequest :=
  { model := nimModel
    messages := r.messages
    temperature := jsOr r.temperature (.num (7/10))
    max_tokens := jsOr r.max_tokens (.num 4096)
    stream := if FORCE_STREAMING then some (.bool true) else r.stream }

/-- Simple variant `nimRequest` object: default temperature `0.6`, and
`stream: stream || false`. -/
def nimRequestSimple (r : InboundRequest) (nimModel : String) : NimRequest :=
  { model := nimModel
    messages := r.messages
    temperature := jsOr r.temperature (.num (6/10))
    max_tokens := jsOr r.max_tokens (.num 4096)
    stream := some (jsOr r.stream (.bool false)) }

/-- `MODEL_MAPPING` of the complete variant (`server.js`), in source order. -/
def modelMapping : List (String × String) :=
  [ ("gpt-3.5-turbo", "meta/llama-3.1-8b-instruct"),
    ("gpt-4", "meta/llama-3.3-70b-instruct"),
    ("gpt-4-turbo", "meta/llama-3.1-405b-instruct"),
    ("gpt-4o", "meta/llama-3.3-70b-instruct"),
    ("gpt-4o-mini", "meta/llama-3.1-8b-instruct"),
    ("deepseek-r1", "deepseek-ai/deepseek-r1"),
    ("deepseek-v3.1", "deepseek-ai/deepseek-v3_1"),
    ("deepseek-v3.2", "deepseek-ai/deepseek-v3_2"),
    ("deepseek-r1-distill-qwen-32b", "deepseek-ai/deepseek-r1-distill-qwen-32b"),
    ("deepseek-r1-distill-qwen-14b", "deepseek-ai/deepseek-r1-distill-qwen-14b"),
    ("deepseek-r1-distill-qwen-7b", "deepseek-ai/deepseek-r1-distill-qwen-7b"),
    ("deepseek-r1-distill-llama-70b", "deepseek-ai/deepseek-r1-distill-llama-70b"),
    ("deepseek-r1-distill-llama-8b", "deepseek-ai/deepseek-r1-distill-llama-8b"),
    ("kimi", "moonshotai/kimi-k2-instruct"),
    ("kimi-k2", "moonshotai/kimi-k2-instruct"),
    ("kimi-k2-instruct", "moonshotai/kimi-k2-instruct"),
    ("kimi-k2-instruct-0905", "moonshotai/kimi-k2-instruct-0905"),
    ("kimi-k2-thinking", "moonshotai/kimi-k2-thinking"),
    ("kimi-k2.5", "moonshotai/kimi-k2.5"),
    ("kimi-2.5", "moonshotai/kimi-k2.5"),
    ("qwen-thinking", "qwen/qwen3-next-80b-a3b-thinking"),
    ("qwen3-next-thinking", "qwen/qwen3-next-80b-a3b-thinking"),
    ("qwen3-next-80b-thinking", "qwen/qwen3-next-80b-a3b-thinking"),
    ("qwen3-next-instruct", "qwen/qwen3-next-80b-a3b-instruct"),
    ("qwen3-235b", "qwen/qwen3-235b-a22b"),
    ("qwen3-30b", "qwen/qwen3-30b-a3b"),
    ("qwq-32b", "qwen/qwq-32b-preview"),
    ("glm-4.7", "z-ai/glm4.7"),
    ("glm4.7", "z-ai/glm4.7"),
    ("glm-4", "z-ai/glm4.7"),
    ("minimax", "minimaxai/minimax-m2.1"),
    ("minimax-m2.1", "minimaxai/minimax-m2.1"),
    ("minimax-2.1", "minimaxai/minimax-m2.1"),
    ("llama-3.1-405b", "meta/llama-3.1-405b-instruct"),
    ("llama-3.1-70b", "meta/llama-3.1-70b-instruct"),
    ("llama-3.1-8b", "meta/llama-3.1-8b-instruct"),
    ("llama-3.2-1b", "meta/llama-3.2-1b-instruct"),
    ("llama-3.2-3b", "meta/llama-3.2-3b-instruct"),
    ("llama-3.3-70b", "meta/llama-3.3-70b-instruct"),
    ("nemotron-ultra", "nvidia/llama-3.1-nemotron-ultra-253b-v1"),
    ("nemotron-70b", "nvidia/llama-3.1-nemotron-70b-instruct"),
    ("nemotron-nano", "nvidia/nemotron-3-nano-30b-a3b"),
    ("nemotron-super", "nvidia/llama-3.3-nemotron-super-49b-v1"),
    ("gemma-27b", "google/gemma-2-27b-it"),
    ("gemma-9b", "google/gemma-2-9b-it"),
    ("gemma-2b", "google/gemma-2-2b-it"),
    ("qwen-72b", "qwen/qwen2.5-72b-instruct"),
    ("qwen-32b", "qwen/qwen2.5-32b-instruct"),
    ("qwen-14b", "qwen/qwen2.5-14b-instruct"),
    ("qwen-7b", "qwen/qwen2.5-7b-instruct"),
    ("mixtral-8x7b", "mistralai/mixtral-8x7b-instruct-v0.1"),
    ("mixtral-8x22b", "mistralai/mixtral-8x22b-instruct-v0.1"),
    ("mistral-7b", "mistralai/mistral-7b-instruct-v0.3"),
    ("phi-3", "microsoft/phi-3-medium-4k-instruct"),
    ("phi-3-small", "microsoft/phi-3-small-8k-instruct"),
    ("phi-3-mini", "microsoft/phi-3-mini-128k-instruct"),
    ("claude-3-opus", "meta/llama-3.1-405b-instruct"),
    ("claude-3-sonnet", "meta/llama-3.3-70b-instruct"),
    ("claude-3-haiku", "meta/llama-3.1-8b-instruct") ]

/-- `MODEL_MAPPING` of the simple variant (`src/unnamed/part_000`). -/
def modelMappingSimple : List (String × String) :=
  [ ("gpt-3.5-turbo", "meta/llama-3.1-8b-instruct"),
    ("gpt-4", "meta/llama-3.3-70b-instruct"),
    ("gpt-4-turbo", "meta/llama-3.1-405b-instruct"),
    ("gpt-4o", "meta/llama-3.3-70b-instruct"),
    ("gpt-4o-mini", "meta/llama-3.1-8b-instruct"),
    ("deepseek-r1", "deepseek-ai/deepseek-r1"),
    ("deepseek-v3.1", "deepseek-ai/deepseek-v3_1"),
    ("deepseek-v3.2", "deepseek-ai/deepseek-v3_2"),
    ("deepseek-r1-distill-qwen-32b", "deepseek-ai/deepseek-r1-distill-qwen-32b"),
    ("deepseek-r1-distill-qwen-14b", "deepseek-ai/deepseek-r1-distill-qwen-14b"),
    ("deepseek-r1-distill-qwen-7b", "deepseek-ai/deepseek-r1-distill-qwen-7b"),
    ("deepseek-r1-distill-llama-70b", "deepseek-ai/deepseek-r1-distill-llama-70b"),
    ("deepseek-r1-distill-llama-8b", "deepseek-ai/deepseek-r1-distill-llama-8b"),
    ("qwen-thinking", "qwen/qwen3-next-80b-a3b-thinking"),
    ("qwen-235b-thinking", "qwen/qwen3-235b-a22b"),
    ("qwq-32b", "qwen/qwq-32b"),
    ("qwen3-next-80b-thinking", "qwen/qwen3-next-80b-a3b-thinking"),
    ("nemotron-nano", "nvidia/nemotron-3-nano-30b-a3b"),
    ("nemotron-super", "nvidia/llama-3.3-nemotron-super-49b-v1"),
    ("llama-3.1-405b", "meta/llama-3.1-405b-instruct"),
    ("llama-3.1-70b", "meta/llama-3.1-70b-instruct"),
    ("llama-3.1-8b", "meta/llama-3.1-8b-instruct"),
    ("llama-3.3-70b", "meta/llama-3.3-70b-instruct"),
    ("kimi", "moonshotai/kimi-k2-instruct"),
    ("kimi-k2", "moonshotai/kimi-k2-instruct"),
    ("kimi-k2-instruct", "moonshotai/kimi-k2-instruct"),
    ("kimi-k2-instruct-0905", "moonshotai/kimi-k2-instruct-0905"),
    ("kimi-k2-thinking", "moonshotai/kimi-k2-thinking"),
    ("kimi-k2.5", "moonshotai/kimi-k2.5"),
    ("gemma-27b", "google/gemma-2-27b-it"),
    ("gemma-9b", "google/gemma-2-9b-it"),
    ("qwen-72b", "qwen/qwen2.5-72b-instruct"),
    ("qwen-32b", "qwen/qwen2.5-32b-instruct"),
    ("qwen-14b", "qwen/qwen2.5-14b-instruct"),
    ("qwen-7b", "qwen/qwen2.5-7b-instruct"),
    ("mixtral-8x7b", "mistralai/mixtral-8x7b-instruct-v0.1"),
    ("mixtral-8x22b", "mistralai/mixtral-8x22b-instruct-v0.1") ]

/-- The property names an object literal inherits from `Object.prototype`:
for these keys `MODEL_MAPPING[key]` yields the inherited member (a function,
or the prototype object itself for `__proto__`) — a truthy non-string —
rather than `undefined`. -/
def objectProtoProps : List String :=
  ["constructor", "hasOwnProperty", "isPrototypeOf", "propertyIsEnumerable",
   "toLocaleString", "toString", "valueOf", "__proto__", "__defineGetter__",
   "__defineSetter__", "__lookupGetter__", "__lookupSetter__"]

/-- Result of the JS property lookup `MODEL_MAPPING[key]`: an own entry of
the literal (a backend identifier string, shadowing the prototype), an
inherited `Object.prototype` member, or `undefined`. -/
inductive JsLookup where
  | ownValue (v : String)
  | inherited
  | absent

/-- JS property lookup over the object literal and its prototype chain. -/
def jsObjLookup (mapping : List (String × String)) (key : String) : JsLookup :=
  match mapping.lookup key with
  | some v => .ownValue v
  | none => if objectProtoProps.contains key then .inherited else .absent

/-- What `nimModel` holds after resolution: a string, or an inherited
`Object.prototype` member (truthy, not a string, no `includes` method). -/
inductive Resolved where
  | str (s : String)
  | protoMember

/-- `let nimModel = MODEL_MAPPING[model]; if (!nimModel) nimModel = model;`
for a string-valued model identifier, with JS property-lookup semantics: an
own entry (nonempty, hence truthy) is kept; an inherited `Object.prototype`
member is truthy, so the falsiness fallback does not fire and `nimModel`
stays that non-string member; only a genuinely absent key falls back to the
input. -/
def resolveModel (mapping : List (String × String)) (model : String) :
    Resolved :=
  match jsObjLookup mapping model with
  | .ownValue v => if v = "" then .str model else .str v
  | .inherited => .protoMember
  | .absent => .str model

/-- `error.response` when the backend answered with a non-2xx status:
HTTP status plus the optional `data.detail` string. -/
structure UpstreamErrorResponse where
  status : Nat
  detail : Option String

/-- The error caught by the handler's `catch`: `response` present exactly
when the failure came from a backend HTTP response; `message` is the
JavaScript error message. -/
structure AxiosFailure where
  response : Option UpstreamErrorResponse
  message : Option String

/-- The JSON error body produced by the catch block. -/
structure ErrorEnvelope where
  message : String
  type : String
  code : Nat
  model_attempted : Option Json

/-- `error.response?.status || 500`. -/
def errStatus (e : AxiosFailure) : Nat :=
  match e.response with
  | some r => if r.status = 0 then 500 else r.status
  | none => 500

/-- The catch block: status from the upstream response when present (else
500), message chain `detail || message || 'Internal server error'`, and
`model_attempted: req.body?.model` (the original, unresolved value). -/
def mapError (reqModel : Option Json) (e : AxiosFailure) : Nat × ErrorEnvelope :=
  let status := errStatus e
  let errorMessage := strOr (e.response.bind (fun r => r.detail))
    (strOr e.message "Internal server error")
  (status,
    { message := "NVIDIA API Error: " ++ errorMessage
      type := "invalid_request_error"
      code := status
      model_attempted := reqModel })

/-- `choice.message` of a backend non-streaming choice (`content` may be
absent). -/
structure NSChoiceMessage where
  role : String
  content : Option String

/-- One choice of a backend non-streaming response. -/
structure NSChoice where
  index : Nat
  message : NSChoiceMessage
  finish_reason : Option String

/-- The `usage` counters. -/
structure Usage where
  prompt_tokens : Nat
  completion_tokens : Nat
  total_tokens : Nat
deriving DecidableEq

/-- Backend non-streaming response body (`usage` may be absent). -/
structure BackendNSResponse where
  choices : List NSChoice
  usage : Option Usage

/-- One choice of the reshaped client-facing response. -/
structure OutChoiceMessage where
  role : String
  content : String

/-- One choice of the reshaped response (index and finish_reason copied). -/
structure OutChoice where
  index : Nat
  message : OutChoiceMessage
  finish_reason : Option String

/-- The reshaped non-streaming response sent to the client. -/
structure ChatResponse where
  id : String
  object : String
  created : Nat
  model : Option Json
  choices : List OutChoice
  usage : Usage

/-- The `openaiResponse` object built on the non-streaming path: fresh id and
timestamp from `Date.now()` (passed in as `now`), `model` echoed from the
request, choices mapped 1:1 with `content || ''`, and `usage || {0,0,0}`. -/
def openaiResponse (reqModel : Option Json) (now : Nat)
    (resp : BackendNSResponse) : ChatResponse :=
  { id := "chatcmpl-" ++ toString now
    object := "chat.completion"
    created := now / 1000
    model := reqModel
    choices := resp.choices.map (fun choice =>
      { index := choice.index
        message := { role := choice.message.role
                     content := strOr choice.message.content "" }
        finish_reason := choice.finish_reason })
    usage := resp.usage.getD ⟨0, 0, 0⟩ }

mutual

/-- JavaScript property-key coercion `ToPropertyKey`/`String(v)` for the
lookup `MODEL_MAPPING[model]`.  Number printing is host behaviour and is kept
abstract as `numKey`; arrays stringify by joining their elements with `,`,
plain objects as `"[object Object]"`. -/
def jsToKey (numKey : ℚ → String) : Json → String
  | .null => "null"
  | .bool b => if b then "true" else "false"
  | .num q => numKey q
  | .str s => s
  | .arr es => String.intercalate "," (jsJoinParts numKey es)
  | .obj _ => "[object Object]"

/-- `Array.prototype.join`: `null` elements become the empty string, other
elements are stringified. -/
def jsJoinParts (numKey : ℚ → String) : List Json → List String
  | [] => []
  | .null :: es => "" :: jsJoinParts numKey es
  | e :: es => jsToKey numKey e :: jsJoinParts numKey es

end

/-- Characters that can occur in the string form of a JavaScript number
(digits, sign, dot, exponent `e`, and the letters of `Infinity` / `NaN`).
No key of the model map consists solely of these. -/
def numberLikeChar (c : Char) : Bool :=
  ("0123456789.+-eInfityNa".toList).contains c

/-- `needle` occurs as a contiguous substring of the haystack
(`String.prototype.includes`). -/
def hasSubstring (needle : List Char) : List Char → Bool
  | [] => needle.isEmpty
  | c :: cs => needle.isPrefixOf (c :: cs) || hasSubstring needle cs

/-- `v.includes(needle)` as evaluated at the family check: a `TypeError`
(modelled as `Except.error`) for `undefined`, `null` and primitives or plain
objects without an `includes` method; substring test on strings;
SameValueZero element test on arrays. -/
def jsIncludes (v : Option Json) (needle : String) : Except Unit Bool :=
  match v with
  | none => .error ()
  | some .null => .error ()
  | some (.bool _) => .error ()
  | some (.num _) => .error ()
  | some (.obj _) => .error ()
  | some (.str s) => .ok (hasSubstring needle.toList s.toList)
  | some (.arr es) => .ok (es.any (fun e =>
      match e with
      | .str s => decide (s = needle)
      | _ => false))

/-- What the chat-completions handler of the complete variant does before any
outbound work: either the family check throws and the catch block answers
(no backend request), or the `axios.post` call is issued. -/
inductive HandlerOutcome where
  | errorResponse (status : Nat) (modelAttempted : Option Json)
  | backendCall (nimModel : Option Json) (timeout : Nat)

/-- The failure object produced when the family check throws a `TypeError`:
no `response` field, only a message. -/
def typeErrorFailure : AxiosFailure :=
  { response := none, message := some "nimModel.includes is not a function" }

/-- The family checks `nimModel.includes('kimi')` / `nimModel.includes('glm')`
and the timeout they select: a throw (non-string `nimModel` without an
`includes` method) lands in the catch block via `mapError` and no backend
request is made; otherwise `axios.post` is issued. -/
def chatFamilyCheck (model nimModel : Option Json) : HandlerOutcome :=
  match jsIncludes nimModel "kimi" with
  | .error _ =>
      let r := mapError model typeErrorFailure
      .errorResponse r.1 r.2.model_attempted
  | .ok isKimiModel =>
      match jsIncludes nimModel "glm" with
      | .error _ =>
          let r := mapError model typeErrorFailure
          .errorResponse r.1 r.2.model_attempted
      | .ok isGLMModel =>
          .backendCall nimModel (if isKimiModel || isGLMModel then 0 else 180000)

/-- The opening of the complete variant's chat handler, up to the outbound
call: resolve `MODEL_MAPPING[model]` by JS property lookup (the key is
coerced; `undefined` looks up the key `"undefined"`; the literal's prototype
chain is consulted), fall back to the raw model only when the lookup result
is falsy, then run the substring family checks.  An own entry is a nonempty
string, so it is kept; an inherited `Object.prototype` member is truthy —
the fallback does not fire — but has no `includes` method, so the family
check throws a `TypeError` on it, landing in the catch block with no backend
request. -/
def chatHandlerPrologue (numKey : ℚ → String) (model : Option Json) :
    HandlerOutcome :=
  let key : String :=
    match model with
    | none => "undefined"
    | some j => jsToKey numKey j
  match jsObjLookup modelMapping key with
  | .ownValue v => chatFamilyCheck model (if v = "" then model else some (.str v))
  | .inherited =>
      let r := mapError model typeErrorFailure
      .errorResponse r.1 r.2.model_attempted
  | .absent => chatFamilyCheck model model

/-- Model fields that are absent or hold a non-string, non-array JSON value
(the shapes on which the family check is shown to throw). -/
def nonStringNonArrayModel : Option Json → Bool
  | none => true
  | some .null => true
  | some (.bool _) => true
  | some (.num _) => true
  | some (.obj _) => true
  | some (.str _) => false
  | some (.arr _) => false

/-- A concrete stand-in for the host's number-to-string coercion, used by
witnesses and counterexamples whose inputs contain no numbers. -/
def numKeyDefault : ℚ → String := fun _ => "0"

/-- A parse function for inputs whose payloads are never inspected as JSON
(or are meant to be unparseable). -/
def parseNone : String → Option Json := fun _ => none

/-- Payload whose delta carries `reasoning_content: ""` (present but falsy). -/
def payloadCE : String :=
  "\x7b\"choices\":[\x7b\"delta\":\x7b\"reasoning_content\":\"\"\x7d\x7d]\x7d"

/-- The JSON value `JSON.parse` yields for `payloadCE`. -/
def jsonCE : Json :=
  .obj [("choices", .arr [.obj [("delta",
    .obj [("reasoning_content", .str "")])]])]

/-- A parse function agreeing with `JSON.parse` on `payloadCE`. -/
def parseCE : String → Option Json :=
  fun s => if s = payloadCE then some jsonCE else none

/-- The path `parsed.choices[0].delta.reasoning_content` used by the filter,
as a single accessor. -/
def reasoningField (j : Json) : Option Json :=
  (((j.getProp "choices").bind Json.index0).bind
    (fun c => c.getProp "delta")).bind
    (fun d => d.getProp "reasoning_content")

/-- A request whose client supplied `temperature: 0` and `max_tokens: 0`. -/
def reqZero : InboundRequest :=
  { model := some (.str "gpt-4"), messages := [],
    temperature := some (.num 0), max_tokens := some (.num 0), stream := none }

end NimProxy

namespace NimProxy

theorem splitLines_append (x y : List Char) :
    splitLines (x ++ y) =
      ((splitLines x).1 ++ (splitLines ((splitLines x).2 ++ y)).1,
        (splitLines ((splitLines x).2 ++ y)).2) := by
  induction x with
  | nil => rfl
  | cons c cs ih =>
    by_cases hc : c = '\n'
    · subst hc
      show splitLines ('\n' :: (cs ++ y)) = _
      simp only [splitLines, if_pos rfl]
      rw [ih]
      simp
    · rcases h1 : splitLines cs with ⟨ls, t⟩
      rcases ls with _ | ⟨l, ls'⟩
      · show splitLines (c :: (cs ++ y)) = _
        simp only [splitLines, if_neg hc, h1]
        rw [ih, h1]
        simp
      · show splitLines (c :: (cs ++ y)) = _
        simp only [splitLines, if_neg hc, h1]
        rw [ih, h1]
        simp

end NimProxy

namespace NimProxy

theorem onData_onData (emit : List Char → List String) (st : TState)
    (a b : List Char) :
    onData emit (onData emit st a) b = onData emit st (a ++ b) := by
  simp only [onData]
  rw [← List.append_assoc, splitLines_append (st.buffer ++ a) b]
  simp [List.map_append, List.flatten_append, List.append_assoc]

theorem runData_cons_merge (emit : List Char → List String) (st : TState)
    (a b : List Char) (cs : List (List Char)) :
    runData emit st (a :: b :: cs) = runData emit st ((a ++ b) :: cs) := by
  simp [runData, List.foldl, onData_onData]

theorem runData_cons_eq (emit : List Char → List String) (st : TState)
    (a : List Char) (cs : List (List Char)) :
    runData emit st (a :: cs) = onData emit st (a ++ cs.flatten) := by
  induction cs generalizing a st with
  | nil => simp [runData, List.foldl]
  | cons b cs ih =>
      rw [runData_cons_merge, ih, List.flatten_cons, List.append_assoc]

theorem runData_initState_eq (emit : List Char → List String)
    (cs : List (List Char)) :
    runData emit initState cs = onData emit initState cs.flatten := by
  cases cs with
  | nil => rfl
  | cons a cs => rw [runData_cons_eq, List.flatten_cons]

theorem splitLines_tail_no_newline (cs : List Char) :
    '\n' ∉ (splitLines cs).2 := by
  induction cs with
  | nil => simp [splitLines]
  | cons c cs ih =>
    by_cases hc : c = '\n'
    · subst hc; simpa [splitLines] using ih
    · rcases h1 : splitLines cs with ⟨ls, t⟩
      rcases ls with _ | ⟨l, ls'⟩
      · simp only [splitLines, if_neg hc, h1]
        rw [h1] at ih
        simp_all [List.mem_cons]
        exact fun h => hc h.symm
      · simp only [splitLines, if_neg hc, h1]
        rw [h1] at ih
        simpa using ih

theorem mem_runData_writes (emit : List Char → List String) (st : TState)
    (cs : List (List Char)) (w : String)
    (h : w ∈ (runData emit st cs).writes) :
    w ∈ st.writes ∨ ∃ l, w ∈ emit l := by
  induction cs generalizing st with
  | nil => exact Or.inl h
  | cons a cs ih =>
      rcases ih (onData emit st a) h with h' | h'
      · simp only [onData, List.mem_append] at h'
        rcases h' with h' | h'
        · exact Or.inl h'
        · rcases List.mem_flatten.mp h' with ⟨out, hout, hw⟩
          rcases List.mem_map.mp hout with ⟨l, _, rfl⟩
          exact Or.inr ⟨l, hw⟩
      · exact Or.inr h'

end NimProxy

namespace NimProxy

theorem isPrefixOf_self_append (l t : List Char) :
    l.isPrefixOf (l ++ t) = true := by
  induction l with
  | nil => simp [List.isPrefixOf]
  | cons c cs ih => simp [List.isPrefixOf, ih]

theorem getProp_some_truthy (j : Json) (k : String) (x : Json)
    (h : j.getProp k = some x) : j.truthy = true := by
  cases j <;> simp_all [Json.getProp, Json.truthy]


end NimProxy

namespace NimProxy

theorem index0_some_truthy (j : Json) (x : Json)
    (h : j.index0 = some x) : j.truthy = true := by
  cases j with
  | null => exact Option.noConfusion h
  | bool b => exact Option.noConfusion h
  | num q => exact Option.noConfusion h
  | str s =>
      simp only [Json.index0] at h
      rcases hd : s.data with _ | ⟨c, cs⟩ <;> rw [hd] at h
      · exact Option.noConfusion h
      · simp only [Json.truthy, decide_eq_true_eq]
        intro hs
        rw [hs] at hd
        have hnil : ([] : List Char) = c :: cs := hd
        exact List.noConfusion hnil
  | arr es => rfl
  | obj fields => rfl

theorem truthyOpt_reasoningField_guard (j : Json)
    (h : truthyOpt (reasoningField j) = true) :
    truthyOpt (j.getProp "choices") = true ∧
    truthyOpt ((j.getProp "choices").bind Json.index0) = true ∧
    truthyOpt (((j.getProp "choices").bind Json.index0).bind
      (fun c => c.getProp "delta")) = true := by
  rcases hr : reasoningField j with _ | rc
  · rw [hr] at h; exact Bool.noConfusion h
  · unfold reasoningField at hr
    rcases Option.bind_eq_some.mp hr with ⟨d, hd, hrc⟩
    rcases Option.bind_eq_some.mp hd with ⟨c0, hc0, hdelta⟩
    rcases Option.bind_eq_some.mp hc0 with ⟨cv, hcv, hidx⟩
    refine ⟨?_, ?_, ?_⟩
    · rw [hcv]
      exact index0_some_truthy cv c0 hidx
    · rw [hcv]
      show truthyOpt (Json.index0 cv) = true
      rw [hidx]
      exact getProp_some_truthy c0 "delta" d hdelta
    · rw [hcv]
      show truthyOpt ((Json.index0 cv).bind (fun c => c.getProp "delta")) = true
      rw [hidx]
      show truthyOpt (c0.getProp "delta") = true
      rw [hdelta]
      exact getProp_some_truthy d "reasoning_content" rc hrc

end NimProxy

namespace NimProxy

theorem handleLine_suppress_mem (parse : String → Option Json) (line : List Char)
    (w : String) (h : w ∈ handleLine false parse line) :
    w = doneWrite ∨ ∃ dc : String, w = "data: " ++ dc ++ "\n\n" ∧
      ∀ j, parse dc = some j → truthyOpt (reasoningField j) = false := by
  simp only [handleLine] at h
  split at h
  · split at h
    · left
      simpa using h
    · right
      refine ⟨String.mk ((trimChars line).drop 6), ?_, ?_⟩
      · split at h
        · split at h
          · split at h
            · simp at h
            · simpa using h
          · simpa using h
        · simpa using h
      · intro j hj
        split at h
        case h_1 parsed hp =>
          rw [hp] at hj
          have hjp : j = parsed := (Option.some.inj hj).symm
          subst hjp
          split at h
          case isTrue hguard =>
            split at h
            case isTrue hsup =>
              simp at h
            case isFalse hsup =>
              cases hb : truthyOpt (reasoningField j) with
              | false => rfl
              | true =>
                  have hg := truthyOpt_reasoningField_guard j hb
                  rw [Bool.not_false] at hsup
                  rw [hg.2.2] at hsup
                  unfold reasoningField at hb
                  simp [hb] at hsup
          case isFalse hguard =>
            cases hb : truthyOpt (reasoningField j) with
            | false => rfl
            | true =>
                have hg := truthyOpt_reasoningField_guard j hb
                rw [hg.1, hg.2.1] at hguard
                simp at hguard
        case h_2 hp =>
          rw [hp] at hj
          exact Option.noConfusion hj
  · simp at h

end NimProxy

namespace NimProxy

theorem handleLine_passthrough (parse : String → Option Json) (line : List Char)
    (dcChars : List Char)
    (htrim : trimChars line = "data: ".toList ++ dcChars) :
    handleLine true parse line = ["data: " ++ String.mk dcChars ++ "\n\n"] := by
  have hdrop : ("data: ".toList ++ dcChars).drop 6 = dcChars := by
    have h6 : ("data: ".toList).length = 6 := rfl
    rw [← h6, List.drop_left]
  simp only [handleLine, htrim, isPrefixOf_self_append, hdrop, if_true]
  by_cases hdone : String.mk dcChars = "[DONE]"
  · rw [if_pos hdone, hdone]
    rfl
  · rw [if_neg hdone]
    cases hp : parse (String.mk dcChars) with
    | none => rfl
    | some parsed =>
        simp only [Bool.not_true, Bool.false_and, Bool.and_false, if_neg,
          Bool.false_eq_true, not_false_eq_true]
        split <;> rfl

theorem handleLine_shape (showT : Bool) (parse : String → Option Json)
    (line : List Char) (w : String) (h : w ∈ handleLine showT parse line) :
    ∃ p : String, w = "data: " ++ p ++ "\n\n" := by
  simp only [handleLine] at h
  split at h
  · split at h
    · refine ⟨"[DONE]", ?_⟩
      have hw : w = doneWrite := by simpa using h
      rw [hw]
      rfl
    · refine ⟨String.mk ((trimChars line).drop 6), ?_⟩
      split at h
      · split at h
        · split at h
          · simp at h
          · simpa using h
        · simpa using h
      · simpa using h
  · simp at h

theorem handleLineSimple_shape (line : List Char) (w : String)
    (h : w ∈ handleLineSimple line) :
    ∃ p : String, w = "data: " ++ p ++ "\n" := by
  simp only [handleLineSimple] at h
  split at h
  case isTrue hpre =>
    obtain ⟨t, ht⟩ := List.isPrefixOf_iff_prefix.mp hpre
    refine ⟨String.mk t, ?_⟩
    have hw : w = String.mk line ++ "\n" := by simpa using h
    rw [hw, ← ht]
    rfl
  case isFalse hpre => simp at h

end NimProxy

namespace NimProxy

theorem mem_runFull_writes (showT : Bool) (parse : String → Option Json)
    (chunks : List (List Char)) (t : Terminal) (w : String)
    (h : w ∈ (runFull showT parse chunks t).writes) :
    w = doneWrite ∨ ∃ l, w ∈ handleLine showT parse l := by
  have h' : w ∈ (runData (handleLine showT parse) initState chunks).writes ∨
      w = doneWrite := by
    cases t with
    | endOfStream =>
        simp only [runFull] at h
        rcases List.mem_append.mp h with h | h
        · exact Or.inl h
        · exact Or.inr (by simpa using h)
    | streamError => exact Or.inl (by simpa [runFull] using h)
  rcases h' with h' | h'
  · rcases mem_runData_writes _ _ _ _ h' with h'' | h''
    · simp [initState] at h''
    · exact Or.inr h''
  · exact Or.inl h'

theorem lookup_value_ne_empty (l : List (String × String)) (k v : String)
    (hall : ∀ p ∈ l, p.2 ≠ "") (h : l.lookup k = some v) : v ≠ "" := by
  induction l with
  | nil => exact Option.noConfusion h
  | cons p l ih =>
      rcases p with ⟨a, b⟩
      simp only [List.lookup] at h
      cases hk : (k == a) with
      | true =>
          rw [hk] at h
          have hbv : b = v := Option.some.inj h
          subst hbv
          exact hall (a, b) (by simp)
      | false =>
          rw [hk] at h
          exact ih (fun p hp => hall p (by simp [hp])) h

theorem lookup_eq_none_of_no_match (l : List (String × String)) (s : String)
    (hbad : ∀ p ∈ l, ∃ c ∈ p.1.toList, numberLikeChar c = false)
    (hs : ∀ c ∈ s.toList, numberLikeChar c = true) :
    l.lookup s = none := by
  induction l with
  | nil => rfl
  | cons p l ih =>
      rcases p with ⟨a, b⟩
      simp only [List.lookup]
      cases hk : (s == a) with
      | true =>
          exfalso
          have hsa : s = a := by simpa using hk
          obtain ⟨c, hc, hcf⟩ := hbad (a, b) (by simp)
          rw [← hsa] at hc
          rw [hs c hc] at hcf
          exact Bool.noConfusion hcf
      | false =>
          exact ih (fun p hp => hbad p (by simp [hp]))

theorem contains_eq_false_of_no_match (l : List String) (s : String)
    (hbad : ∀ p ∈ l, ∃ c ∈ p.toList, numberLikeChar c = false)
    (hs : ∀ c ∈ s.toList, numberLikeChar c = true) :
    l.contains s = false := by
  induction l with
  | nil => rfl
  | cons a l ih =>
      show List.elem s (a :: l) = false
      simp only [List.elem]
      cases hk : (s == a) with
      | true =>
          exfalso
          have hsa : s = a := by simpa using hk
          obtain ⟨c, hc, hcf⟩ := hbad a (by simp)
          rw [← hsa] at hc
          rw [hs c hc] at hcf
          exact Bool.noConfusion hcf
      | false =>
          exact ih (fun p hp => hbad p (by simp [hp]))

theorem jsObjLookup_absent_of_numberLike (s : String)
    (hs : ∀ c ∈ s.toList, numberLikeChar c = true) :
    jsObjLookup modelMapping s = JsLookup.absent := by
  have hkeys : ∀ p ∈ modelMapping, ∃ c ∈ p.1.toList, numberLikeChar c = false := by
    decide
  have hproto : ∀ p ∈ objectProtoProps, ∃ c ∈ p.toList, numberLikeChar c = false := by
    decide
  unfold jsObjLookup
  rw [lookup_eq_none_of_no_match _ _ hkeys hs,
    contains_eq_false_of_no_match _ _ hproto hs]
  rfl

theorem utf8Fold_append (st : Utf8State) (a b : List Nat) :
    utf8Fold st (a ++ b) =
      ((utf8Fold st a).1 ++ (utf8Fold (utf8Fold st a).2 b).1,
        (utf8Fold (utf8Fold st a).2 b).2) := by
  induction a generalizing st with
  | nil => rfl
  | cons x xs ih =>
      simp [utf8Fold, ih, List.append_assoc]

theorem utf8Decode_append_of_aligned (a b : List Nat)
    (ha : (utf8Fold .start a).2 = .start) :
    utf8Decode (a ++ b) = utf8Decode a ++ utf8Decode b := by
  unfold utf8Decode
  rw [utf8Fold_append, ha]
  simp [utf8Flush, List.append_assoc]

theorem utf8Decode_flatten_of_aligned (cs : List (List Nat))
    (h : ∀ c ∈ cs, (utf8Fold .start c).2 = .start) :
    utf8Decode cs.flatten = (cs.map utf8Decode).flatten := by
  induction cs with
  | nil => rfl
  | cons c cs ih =>
      rw [List.flatten_cons, utf8Decode_append_of_aligned _ _ (h c (by simp)),
        List.map_cons, List.flatten_cons, ih (fun x hx => h x (by simp [hx]))]

theorem runDataBytes_eq_runData (emit : List Char → List String) (st : TState)
    (cs : List (List Nat)) :
    runDataBytes emit st cs = runData emit st (cs.map utf8Decode) := by
  induction cs generalizing st with
  | nil => rfl
  | cons c cs ih =>
      show runDataBytes emit (onDataBytes emit st c) cs = _
      rw [ih]
      rfl

end NimProxy

namespace NimProxy

/-- Claim C1 (refuted, code bug): the claim says every stream ends with
exactly one `[DONE]`, and the `end` handler's own comment says "Send final
[DONE] if not already sent" — but the handler writes the sentinel
unconditionally, so an upstream stream that already ends with `[DONE]`
produces two `[DONE]` events downstream (while a stream that omits it
correctly gets exactly one). -/
theorem stream_end_duplicates_done :
    (runFull true parseNone ["data: [DONE]\n".toList] Terminal.endOfStream).writes
        = [doneWrite, doneWrite] ∧
    (runFull true parseNone [] Terminal.endOfStream).writes = [doneWrite] :=
  ⟨rfl, rfl⟩

/-- Claim C2 counterexample: the program is not invariant under arbitrary
byte-offset fragmentation.  Each chunk is decoded by its own
`Buffer.toString()` call, so splitting the same bytes of `data: éx\n`
between the two bytes of `é` makes both halves decode with U+FFFD
replacement and the emitted event differs from the unfragmented run. -/
theorem transcoder_utf8_split_dependent :
    accentBytes.take 7 ++ accentBytes.drop 7 = accentBytes ∧
    (runFullBytes true parseNone [accentBytes] Terminal.endOfStream).writes
      ≠ (runFullBytes true parseNone [accentBytes.take 7, accentBytes.drop 7]
          Terminal.endOfStream).writes :=
  ⟨by decide, by decide⟩

/-- Claim C2 (amended): the transcoder's output depends only on the
concatenation of the per-chunk `Buffer.toString` decodes — any two byte
fragmentations whose chunk-wise decodes concatenate to the same character
sequence produce identical states and writes, for any per-line emitter and
either terminal event.  In particular every fragmentation that splits only
at character boundaries (each chunk leaves the decoder between code points)
behaves exactly like the unfragmented stream.  The retained buffer never
contains a newline, i.e. only newline-terminated lines are ever
processed. -/
theorem transcoder_fragmentation_decode_invariant :
    (∀ (emit : List Char → List String) (cs1 cs2 : List (List Nat)),
        (cs1.map utf8Decode).flatten = (cs2.map utf8Decode).flatten →
          runDataBytes emit initState cs1 = runDataBytes emit initState cs2) ∧
    (∀ (showT : Bool) (parse : String → Option Json) (cs1 cs2 : List (List Nat))
        (t : Terminal),
        (cs1.map utf8Decode).flatten = (cs2.map utf8Decode).flatten →
          runFullBytes showT parse cs1 t = runFullBytes showT parse cs2 t) ∧
    (∀ (emit : List Char → List String) (cs : List (List Nat)),
        (∀ c ∈ cs, (utf8Fold .start c).2 = .start) →
          runDataBytes emit initState cs
            = runDataBytes emit initState [cs.flatten]) ∧
    (∀ cs : List Char, '\n' ∉ (splitLines cs).2) := by
  have hbase : ∀ (emit : List Char → List String) (cs1 cs2 : List (List Nat)),
      (cs1.map utf8Decode).flatten = (cs2.map utf8Decode).flatten →
        runDataBytes emit initState cs1 = runDataBytes emit initState cs2 := by
    intro emit cs1 cs2 h
    rw [runDataBytes_eq_runData, runDataBytes_eq_runData,
      runData_initState_eq, runData_initState_eq, h]
  refine ⟨hbase, ?_, ?_, splitLines_tail_no_newline⟩
  · intro showT parse cs1 cs2 t h
    unfold runFullBytes
    rw [hbase _ _ _ h]
  · intro emit cs h
    apply hbase
    rw [← utf8Decode_flatten_of_aligned cs h]
    simp

/-- Witness for C2 at the spec's scenario shape, in bytes: an ASCII line
split over two character-aligned chunks versus delivered whole. -/
theorem transcoder_fragmentation_decode_invariant_witness :
    ((["data: ok".toList.map Char.toNat, "x\n".toList.map Char.toNat]
        : List (List Nat)).map utf8Decode).flatten
      = (([("data: okx\n".toList.map Char.toNat)]
        : List (List Nat)).map utf8Decode).flatten ∧
    runDataBytes (handleLine true parseNone) initState
        ["data: ok".toList.map Char.toNat, "x\n".toList.map Char.toNat]
      = runDataBytes (handleLine true parseNone) initState
        [("data: okx\n".toList.map Char.toNat)] :=
  ⟨by decide, transcoder_fragmentation_decode_invariant.1 _ _ _ (by decide)⟩

/-- Claim C3 counterexample: with suppression active (`SHOW_THINKING` off),
an event whose first-choice delta carries the reasoning-content field with a
falsy value (the empty string) is still emitted, because the filter tests
JS truthiness, not field presence. -/
theorem suppression_empty_reasoning_emitted :
    parseCE payloadCE = some jsonCE ∧
    (reasoningField jsonCE).isSome = true ∧
    handleLine false parseCE ("data: " ++ payloadCE).toList
      = ["data: " ++ payloadCE ++ "\n\n"] :=
  ⟨rfl, rfl, rfl⟩

/-- Claim C3 (amended): with suppression active, every downstream write is
the `[DONE]` event or a data event whose payload, if it parses, has no
JS-truthy first-choice `delta.reasoning_content` (present-but-falsy values
such as `""` survive); with suppression inactive, every `data: `-framed line
is forwarded with its payload unchanged, whether or not it parses as JSON. -/
theorem suppression_filter_characterization :
    (∀ (parse : String → Option Json) (chunks : List (List Char)) (t : Terminal)
        (w : String), w ∈ (runFull false parse chunks t).writes →
          w = doneWrite ∨ ∃ dc : String, w = "data: " ++ dc ++ "\n\n" ∧
            ∀ j, parse dc = some j → truthyOpt (reasoningField j) = false) ∧
    (∀ (parse : String → Option Json) (line dcChars : List Char),
        trimChars line = "data: ".toList ++ dcChars →
          handleLine true parse line = ["data: " ++ String.mk dcChars ++ "\n\n"]) := by
  constructor
  · intro parse chunks t w hw
    rcases mem_runFull_writes false parse chunks t w hw with h | ⟨l, hl⟩
    · exact Or.inl h
    · exact handleLine_suppress_mem parse l w hl
  · exact handleLine_passthrough

/-- Witness for C3: with suppression inactive, a concrete data line is
forwarded unchanged. -/
theorem suppression_filter_characterization_witness :
    trimChars ("data: hi".toList) = "data: ".toList ++ "hi".toList ∧
    handleLine true parseNone ("data: hi".toList)
      = ["data: " ++ String.mk ("hi".toList) ++ "\n\n"] :=
  ⟨by decide,
    suppression_filter_characterization.2 parseNone ("data: hi".toList)
      ("hi".toList) (by decide)⟩

end NimProxy

namespace NimProxy

/-- Claim C4 counterexample: the code uses `||`, not `??` — an explicit
`temperature: 0` is replaced by the default `0.7`, and `max_tokens: 0` by
`4096`, contradicting the claimed include-zero semantics. -/
theorem temperature_zero_gets_default :
    reqZero.temperature = some (Json.num 0) ∧
    reqZero.max_tokens = some (Json.num 0) ∧
    (nimRequest reqZero "meta/llama-3.3-70b-instruct").temperature ≠ Json.num 0 ∧
    (nimRequest reqZero "meta/llama-3.3-70b-instruct").temperature = Json.num (7/10) ∧
    (nimRequest reqZero "meta/llama-3.3-70b-instruct").max_tokens = Json.num 4096 := by
  refine ⟨rfl, rfl, ?_, rfl, rfl⟩
  intro h
  have h2 : Json.num (7/10) = Json.num 0 := h
  injection h2 with h3
  norm_num at h3

/-- Claim C4 (amended): `messages` is copied verbatim, and the defaults have
`||` semantics — the inbound value is kept exactly when it is present and
JS-truthy (a nonzero number); when absent or falsy (including an explicit 0)
the default applies: temperature `0.7` (complete) / `0.6` (simple),
max_tokens `4096`. -/
theorem nimRequest_messages_and_defaults (r : InboundRequest) (m : String) :
    (nimRequest r m).messages = r.messages ∧
    (nimRequestSimple r m).messages = r.messages ∧
    (∀ j, r.temperature = some j → j.truthy = true →
        (nimRequest r m).temperature = j ∧ (nimRequestSimple r m).temperature = j) ∧
    (∀ j, r.temperature = some j → j.truthy = false →
        (nimRequest r m).temperature = Json.num (7/10) ∧
        (nimRequestSimple r m).temperature = Json.num (6/10)) ∧
    (r.temperature = none →
        (nimRequest r m).temperature = Json.num (7/10) ∧
        (nimRequestSimple r m).temperature = Json.num (6/10)) ∧
    (∀ j, r.max_tokens = some j → j.truthy = true →
        (nimRequest r m).max_tokens = j ∧ (nimRequestSimple r m).max_tokens = j) ∧
    (∀ j, r.max_tokens = some j → j.truthy = false →
        (nimRequest r m).max_tokens = Json.num 4096 ∧
        (nimRequestSimple r m).max_tokens = Json.num 4096) ∧
    (r.max_tokens = none →
        (nimRequest r m).max_tokens = Json.num 4096 ∧
        (nimRequestSimple r m).max_tokens = Json.num 4096) := by
  refine ⟨rfl, rfl, ?_, ?_, ?_, ?_, ?_, ?_⟩ <;>
    first
      | (intro j hj ht
         constructor <;> simp [nimRequest, nimRequestSimple, jsOr, hj, ht])
      | (intro hn
         constructor <;> simp [nimRequest, nimRequestSimple, jsOr, hn])

/-- Witness for C4: a truthy inbound temperature is kept as-is. -/
theorem nimRequest_messages_and_defaults_witness :
    (⟨none, [], some (.num 2), none, none⟩ : InboundRequest).temperature
        = some (Json.num 2) ∧
    (Json.num 2).truthy = true ∧
    (nimRequest ⟨none, [], some (.num 2), none, none⟩ "m").temperature = Json.num 2 :=
  ⟨rfl, by decide,
    ((nimRequest_messages_and_defaults ⟨none, [], some (.num 2), none, none⟩ "m").2.2.1
      (Json.num 2) rfl (by decide)).1⟩

/-- Claim C6 (confirmed): the error mapper answers with the upstream HTTP
status for any valid non-2xx backend response and 500 for every failure
without a backend response; `model_attempted` always echoes the original
client-supplied model value (the resolved backend name never reaches the
catch block); in particular a backend 429 maps to downstream 429. -/
theorem error_mapper_status_and_model (reqModel : Option Json) (e : AxiosFailure) :
    (∀ r, e.response = some r → 100 ≤ r.status → (mapError reqModel e).1 = r.status) ∧
    (e.response = none → (mapError reqModel e).1 = 500) ∧
    (mapError reqModel e).2.model_attempted = reqModel ∧
    (∀ r, e.response = some r → r.status = 429 →
        (mapError reqModel e).1 = 429 ∧
        (mapError reqModel e).2.model_attempted = reqModel) := by
  refine ⟨?_, ?_, rfl, ?_⟩
  · intro r hr h100
    simp only [mapError, errStatus, hr]
    rw [if_neg (by omega)]
  · intro hn
    simp [mapError, errStatus, hn]
  · intro r hr h429
    refine ⟨?_, rfl⟩
    simp only [mapError, errStatus, hr, h429]
    rfl

/-- Witness for C6: a backend 429 with the client model `gpt-4`. -/
theorem error_mapper_status_and_model_witness :
    (mapError (some (.str "gpt-4")) ⟨some ⟨429, some "rate limit"⟩, some "boom"⟩).1
        = 429 ∧
    (mapError (some (.str "gpt-4"))
        ⟨some ⟨429, some "rate limit"⟩, some "boom"⟩).2.model_attempted
        = some (.str "gpt-4") :=
  (error_mapper_status_and_model (some (.str "gpt-4"))
      ⟨some ⟨429, some "rate limit"⟩, some "boom"⟩).2.2.2
    ⟨429, some "rate limit"⟩ rfl rfl

/-- Claim C7 (confirmed): the non-streaming reshaper echoes the client's
model, defaults a missing `usage` to all-zero counters, maps choices 1:1
preserving order and index, and defaults a missing `content` to the empty
string (role and finish_reason are copied unchanged). -/
theorem response_reshaper_defaults (reqModel : Option Json) (now : Nat)
    (resp : BackendNSResponse) :
    (openaiResponse reqModel now resp).model = reqModel ∧
    (resp.usage = none → (openaiResponse reqModel now resp).usage = ⟨0, 0, 0⟩) ∧
    ((openaiResponse reqModel now resp).choices.map OutChoice.index
        = resp.choices.map NSChoice.index) ∧
    ((openaiResponse reqModel now resp).choices.length = resp.choices.length) ∧
    (∀ (i : Nat) (c : NSChoice), resp.choices[i]? = some c →
        c.message.content = none →
        ∃ oc : OutChoice, (openaiResponse reqModel now resp).choices[i]? = some oc ∧
          oc.index = c.index ∧ oc.message.content = "" ∧
          oc.finish_reason = c.finish_reason ∧ oc.message.role = c.message.role) := by
  refine ⟨rfl, ?_, ?_, ?_, ?_⟩
  · intro h
    simp [openaiResponse, h]
  · simp [openaiResponse, List.map_map]
  · simp [openaiResponse]
  · intro i c hi hc
    have hstep : (openaiResponse reqModel now resp).choices[i]?
        = (resp.choices[i]?).map (fun choice : NSChoice =>
            ({ index := choice.index,
               message := { role := choice.message.role,
                            content := strOr choice.message.content "" },
               finish_reason := choice.finish_reason } : OutChoice)) := by
      simp [openaiResponse, List.getElem?_map]
    refine ⟨{ index := c.index,
              message := { role := c.message.role, content := "" },
              finish_reason := c.finish_reason }, ?_, rfl, rfl, rfl, rfl⟩
    rw [hstep, hi]
    simp [hc, strOr]

/-- Witness for C7 at the spec's example: one choice with no content and no
usage yields empty content and zero counters. -/
theorem response_reshaper_defaults_witness :
    ((⟨[⟨0, ⟨"assistant", none⟩, some "stop"⟩], none⟩ : BackendNSResponse).usage
        = none) ∧
    (openaiResponse (some (.str "gpt-4")) 1000
        ⟨[⟨0, ⟨"assistant", none⟩, some "stop"⟩], none⟩).usage = ⟨0, 0, 0⟩ :=
  ⟨rfl, (response_reshaper_defaults (some (.str "gpt-4")) 1000
      ⟨[⟨0, ⟨"assistant", none⟩, some "stop"⟩], none⟩).2.1 rfl⟩

end NimProxy

namespace NimProxy

/-- Claim C5 counterexample: the simple variant writes a forwarded event as
the `data:` line plus a single newline — `data: hi\n` is written, and it is
not of the form `data: <payload>` followed by a blank line. -/
theorem simple_variant_missing_blank_line :
    "data: hi\n" ∈ (runSimple ["data: hi\n".toList] Terminal.endOfStream).writes ∧
    ¬ ∃ p : String, "data: hi\n" = "data: " ++ p ++ "\n\n" := by
  refine ⟨by decide, ?_⟩
  rintro ⟨p, hp⟩
  have hd := congrArg String.data hp
  rw [String.data_append, String.data_append] at hd
  have hlen := congrArg List.length hd
  rw [List.length_append, List.length_append] at hlen
  have h9 : ("data: hi\n" : String).data.length = 9 := rfl
  have h6 : ("data: " : String).data.length = 6 := rfl
  have h2 : ("\n\n" : String).data.length = 2 := rfl
  rw [h9, h6, h2] at hlen
  obtain ⟨c, hc⟩ := List.length_eq_one.mp (by omega : p.data.length = 1)
  rw [hc] at hd
  have h7 : some 'i' = some '\n' := congrArg (fun l => l.get? 7) hd
  exact absurd (Option.some.inj h7) (by decide)

/-- Claim C5 (amended): in the complete variant every downstream write —
forwarded events, the `[DONE]` sentinel, and the synthesized end-of-stream
sentinel alike — has the form `data: <payload>` followed by a blank line; in
the simple variant every write is the `data:` line followed by a single
newline and no blank-line terminator. -/
theorem forwarded_event_framing :
    (∀ (showT : Bool) (parse : String → Option Json) (chunks : List (List Char))
        (t : Terminal) (w : String), w ∈ (runFull showT parse chunks t).writes →
          ∃ p : String, w = "data: " ++ p ++ "\n\n") ∧
    (∀ (chunks : List (List Char)) (t : Terminal) (w : String),
        w ∈ (runSimple chunks t).writes →
          ∃ p : String, w = "data: " ++ p ++ "\n") := by
  constructor
  · intro showT parse chunks t w hw
    rcases mem_runFull_writes showT parse chunks t w hw with h | ⟨l, hl⟩
    · refine ⟨"[DONE]", ?_⟩
      rw [h]
      rfl
    · exact handleLine_shape showT parse l w hl
  · intro chunks t w hw
    have h : w ∈ (runData handleLineSimple initState chunks).writes := by
      cases t <;> simpa [runSimple] using hw
    rcases mem_runData_writes _ _ _ _ h with h' | ⟨l, hl⟩
    · simp [initState] at h'
    · exact handleLineSimple_shape l w hl

/-- Witness for C5: a concrete complete-variant write matches the
`data:`-plus-blank-line shape. -/
theorem forwarded_event_framing_witness :
    "data: ok\n\n" ∈ (runFull true parseNone ["data: ok\n".toList]
        Terminal.endOfStream).writes ∧
    ∃ p : String, "data: ok\n\n" = "data: " ++ p ++ "\n\n" :=
  ⟨by decide,
    forwarded_event_framing.1 true parseNone ["data: ok\n".toList]
      Terminal.endOfStream "data: ok\n\n" (by decide)⟩

/-- Claim C8 counterexample: `MODEL_MAPPING[model]` is a JS property lookup
and consults `Object.prototype`: for the absent identifier `toString` the
lookup yields the inherited (truthy) function, `if (!nimModel)` does not
fire, and resolution returns that non-string member instead of the input
unchanged — and the complete variant then throws at the family check,
answering 500 instead of passing the identifier through. -/
theorem proto_key_breaks_identity_fallback :
    modelMapping.lookup "toString" = none ∧
    resolveModel modelMapping "toString" ≠ Resolved.str "toString" ∧
    resolveModel modelMapping "toString" = Resolved.protoMember ∧
    chatHandlerPrologue numKeyDefault (some (Json.str "toString"))
      = HandlerOutcome.errorResponse 500 (some (Json.str "toString")) :=
  ⟨by decide, fun h => Resolved.noConfusion h, rfl, rfl⟩

/-- Claim C8 (amended): for both variants' model maps, a mapped identifier
resolves to its mapped backend identifier; an absent identifier that is not
an `Object.prototype` property name resolves to the input unchanged; but an
absent identifier naming an inherited `Object.prototype` member (`toString`,
`valueOf`, `constructor`, `hasOwnProperty`, ...) resolves to that truthy
non-string member — the identity fallback does not fire.  Resolution
performs no side effects. -/
theorem resolve_model_lookup_proto :
    (∀ k v, modelMapping.lookup k = some v →
        resolveModel modelMapping k = Resolved.str v) ∧
    (∀ k, modelMapping.lookup k = none → objectProtoProps.contains k = false →
        resolveModel modelMapping k = Resolved.str k) ∧
    (∀ k, modelMapping.lookup k = none → objectProtoProps.contains k = true →
        resolveModel modelMapping k = Resolved.protoMember) ∧
    (∀ k v, modelMappingSimple.lookup k = some v →
        resolveModel modelMappingSimple k = Resolved.str v) ∧
    (∀ k, modelMappingSimple.lookup k = none →
        objectProtoProps.contains k = false →
        resolveModel modelMappingSimple k = Resolved.str k) ∧
    (∀ k, modelMappingSimple.lookup k = none →
        objectProtoProps.contains k = true →
        resolveModel modelMappingSimple k = Resolved.protoMember) := by
  have h1 : ∀ p ∈ modelMapping, p.2 ≠ "" := by decide
  have h2 : ∀ p ∈ modelMappingSimple, p.2 ≠ "" := by decide
  refine ⟨?_, ?_, ?_, ?_, ?_, ?_⟩
  · intro k v h
    unfold resolveModel jsObjLookup
    rw [h]
    show (if v = "" then Resolved.str k else Resolved.str v) = Resolved.str v
    rw [if_neg (lookup_value_ne_empty _ _ _ h1 h)]
  · intro k h hc
    unfold resolveModel jsObjLookup
    rw [h, hc]
    rfl
  · intro k h hc
    unfold resolveModel jsObjLookup
    rw [h, hc]
    rfl
  · intro k v h
    unfold resolveModel jsObjLookup
    rw [h]
    show (if v = "" then Resolved.str k else Resolved.str v) = Resolved.str v
    rw [if_neg (lookup_value_ne_empty _ _ _ h2 h)]
  · intro k h hc
    unfold resolveModel jsObjLookup
    rw [h, hc]
    rfl
  · intro k h hc
    unfold resolveModel jsObjLookup
    rw [h, hc]
    rfl

/-- Witness for C8: a mapped name, an unmapped plain name, and the inherited
`valueOf` key. -/
theorem resolve_model_lookup_proto_witness :
    modelMapping.lookup "gpt-4" = some "meta/llama-3.3-70b-instruct" ∧
    resolveModel modelMapping "gpt-4"
      = Resolved.str "meta/llama-3.3-70b-instruct" ∧
    modelMapping.lookup "nvidia/native-model" = none ∧
    objectProtoProps.contains "nvidia/native-model" = false ∧
    resolveModel modelMapping "nvidia/native-model"
      = Resolved.str "nvidia/native-model" ∧
    modelMapping.lookup "valueOf" = none ∧
    objectProtoProps.contains "valueOf" = true ∧
    resolveModel modelMapping "valueOf" = Resolved.protoMember :=
  ⟨by decide, resolve_model_lookup_proto.1 "gpt-4" _ (by decide),
    by decide, by decide,
    resolve_model_lookup_proto.2.1 "nvidia/native-model" (by decide) (by decide),
    by decide, by decide,
    resolve_model_lookup_proto.2.2.1 "valueOf" (by decide) (by decide)⟩

/-- Claim C9 (confirmed): on upstream stream error neither variant writes
anything beyond what the data handler already wrote — in particular no
`[DONE]` is synthesized — and the response is ended; the synthesized
`[DONE]` is appended exactly on the graceful end path. -/
theorem stream_error_no_further_writes (showT : Bool)
    (parse : String → Option Json) (chunks : List (List Char)) :
    (runFull showT parse chunks Terminal.streamError).writes
        = (runData (handleLine showT parse) initState chunks).writes ∧
    (runFull showT parse chunks Terminal.streamError).ended = true ∧
    (runFull showT parse chunks Terminal.endOfStream).writes
        = (runData (handleLine showT parse) initState chunks).writes
            ++ [doneWrite] ∧
    (runSimple chunks Terminal.streamError).writes
        = (runData handleLineSimple initState chunks).writes ∧
    (runSimple chunks Terminal.streamError).ended = true :=
  ⟨rfl, rfl, rfl, rfl, rfl⟩

/-- Claim C10 counterexample: an array-valued (hence non-string) model does
not throw at the family check — the empty array coerces to the property key
`""`, misses the map, and `[].includes('kimi')` is a legal call — so the
backend request is issued, contrary to the claim. -/
theorem array_model_reaches_backend :
    (∀ s, Json.arr [] ≠ Json.str s) ∧
    chatHandlerPrologue numKeyDefault (some (Json.arr []))
      = HandlerOutcome.backendCall (some (Json.arr [])) 180000 :=
  ⟨fun _ h => Json.noConfusion h, rfl⟩

/-- Claim C10 (amended): for a request whose model field is absent, null, a
boolean, a number, or a plain object — but not an array — the complete
variant's handler throws a `TypeError` at the `nimModel.includes` family
check before `axios.post` is reached, and the catch block answers 500 with
`model_attempted` echoing the request's model field; no backend request is
issued.  Number keys are covered under the assumption that the host prints
numbers using only number-string characters. -/
theorem missing_model_throws_before_backend (numKey : ℚ → String)
    (model : Option Json)
    (hnum : ∀ q, ∀ c ∈ (numKey q).toList, numberLikeChar c = true)
    (hshape : nonStringNonArrayModel model = true) :
    chatHandlerPrologue numKey model = HandlerOutcome.errorResponse 500 model := by
  cases model with
  | none => rfl
  | some j =>
      cases j with
      | null => rfl
      | bool b => cases b <;> rfl
      | num q =>
          have hlook : jsObjLookup modelMapping (numKey q) = JsLookup.absent :=
            jsObjLookup_absent_of_numberLike (numKey q) (hnum q)
          simp only [chatHandlerPrologue, jsToKey, hlook]
          rfl
      | obj fields => rfl
      | str s => exact Bool.noConfusion hshape
      | arr es => exact Bool.noConfusion hshape

/-- Witness for C10: the absent-model request is answered 500 with the
absent model echoed and no backend call. -/
theorem missing_model_throws_before_backend_witness :
    nonStringNonArrayModel none = true ∧
    chatHandlerPrologue numKeyDefault none = HandlerOutcome.errorResponse 500 none :=
  ⟨rfl,
    missing_model_throws_before_backend numKeyDefault none
      (fun q c hc => by
        have hc0 : c = '0' := List.mem_singleton.mp hc
        rw [hc0]
        rfl)
      rfl⟩

end NimProxy
